import Mathlib

/-!
# Verification of the daggerheart-card-pdf-generator extraction-and-pagination pipeline

Shallow embedding of the core pipeline of the repository:

* `image_extractor.py` — dual-strategy PDF image extraction (`extract_images`,
  `extract_images_pypdf`, `_extract_main_image_from_page`) with fallback and
  failure tracking;
* `layout.py` — the card collector (`collect_card_images`), the 3x3 page layout
  engine (`write_3x3_image_pdf`) and the orchestrator (`build_cards_pdf`);
* `zip_reader.py` — entry classification helpers (`is_image_file`,
  `list_images_in_zip`, `count_images_in_zips`).

The PDF-parsing libraries (pypdf, PyMuPDF/fitz) are external collaborators; the
embedding models what they report about one PDF byte stream as explicit data
(`PdfContent`): whether the byte stream starts with the `%PDF` signature, the
pypdf outcome (an exception at open, or a list of pages, each page carrying its
embedded raster images or raising during per-page extraction), and the fitz
outcome (an exception, or a successful rasterization of `n` pages).  File
writes are modelled functionally: an operation that writes bytes to a path and
returns the path is modelled as returning the `(path, bytes)` pair (or the path
alone where the bytes are never inspected downstream).
-/

/-- One embedded raster image of a PDF page, as reported by pypdf:
pixel width, pixel height and the raw encoded bytes (modelled as `List Nat`). -/
structure PdfImage where
  width : Nat
  height : Nat
  data : List Nat
deriving DecidableEq, Repr

/-- What pypdf does on one page of an opened PDF: either per-page image
extraction raises an exception, or the page carries a (possibly empty) list of
embedded raster images. -/
inductive PageOutcome where
  | raises
  | images (l : List PdfImage)
deriving DecidableEq, Repr

/-- What `PdfReader` does on the raw bytes: throws at open / during iteration,
or yields the list of pages. -/
inductive ReaderOutcome where
  | throws (e : String)
  | pages (ps : List PageOutcome)
deriving DecidableEq, Repr

/-- What `fitz.open` + per-page `get_pixmap`/`save` does on the raw bytes:
throws, or successfully rasterizes `n` pages. -/
inductive FitzOutcome where
  | throws (e : String)
  | renders (n : Nat)
deriving DecidableEq, Repr

/-- The behaviour of one PDF byte stream under the two external PDF libraries:
`header_ok` is `data.startswith(b'%PDF')`, `reader` the pypdf outcome and
`fitz` the PyMuPDF outcome. -/
structure PdfContent where
  header_ok : Bool
  reader : ReaderOutcome
  fitz : FitzOutcome
deriving DecidableEq, Repr

/-- `CardImage` from `image_extractor.py` / `layout.py`: an extracted card with
its source ZIP name, source PDF entry name and materialized image path. -/
structure CardImage where
  zip_name : String
  pdf_name : String
  image_path : String
deriving DecidableEq, Repr

/-- `FailedPdf` from `image_extractor.py` / `layout.py`: a PDF whose primary
extraction did not yield images, with the error text and whether the fitz
fallback produced output. -/
structure FailedPdf where
  zip_name : String
  pdf_name : String
  error : String
  used_fallback : Bool
deriving DecidableEq, Repr

/-- The filename pattern shared by both extraction strategies:
`f"{zip_name}_{pdf_stem}_p{page_index}.png"`. -/
def imageFileName (zipName pdfStem : String) (pageIndex : Nat) : String :=
  zipName ++ "_" ++ pdfStem ++ "_p" ++ toString pageIndex ++ ".png"

/-- `img_score` from `_extract_main_image_from_page`:
`width * height or len(data)` — the pixel area, or the raw byte length when
the area is zero. -/
def img_score (img : PdfImage) : Nat :=
  if img.width * img.height = 0 then img.data.length else img.width * img.height

/-- `max(imgs, key=img_score)` — Python's `max` keeps the first element
attaining the maximal key, replacing the current best only on a strictly
larger key. -/
def mainImageOf (x : PdfImage) (xs : List PdfImage) : PdfImage :=
  xs.foldl (fun best y => if img_score best < img_score y then y else best) x

/-- `_extract_main_image_from_page` from `image_extractor.py` (identical to
`_extract_main_image_to_temp` in `layout.py`): on a page with no embedded
images, return `none`; otherwise pick the image with the maximal `img_score`;
if its raw data is empty return `none`, else write the raw bytes to
`{zip_name}_{pdf_stem}_p{page_index}.png` and return the path.  The write is
modelled by returning the `(filename, bytes)` pair. -/
def extract_main_image_from_page (images : List PdfImage) (zipName pdfStem : String)
    (pageIndex : Nat) : Option (String × List Nat) :=
  match images with
  | [] => none
  | x :: xs =>
    let main := mainImageOf x xs
    if main.data.isEmpty then none
    else some (imageFileName zipName pdfStem pageIndex, main.data)

/-- The page loop of `extract_images_pypdf`: pages are processed in order with
0-based indices; a page whose extraction raises propagates the exception (the
partial result list is discarded); a page without images contributes nothing. -/
def pypdfPageLoop (zipName pdfStem : String) (i : Nat) :
    List PageOutcome → Except String (List String)
  | [] => .ok []
  | PageOutcome.raises :: _ => .error "Exception: page image extraction failed"
  | PageOutcome.images l :: rest =>
    match extract_main_image_from_page l zipName pdfStem i with
    | some pr =>
      match pypdfPageLoop zipName pdfStem (i + 1) rest with
      | .ok r => .ok (pr.1 :: r)
      | .error e => .error e
    | none => pypdfPageLoop zipName pdfStem (i + 1) rest

/-- `extract_images_pypdf` from `image_extractor.py`: raise `ValueError` on a
bad header, propagate `PdfReader` exceptions, otherwise extract the main image
of every page in order. -/
def extract_images_pypdf (p : PdfContent) (zipName pdfStem : String) :
    Except String (List String) :=
  if p.header_ok then
    match p.reader with
    | .throws e => .error e
    | .pages ps => pypdfPageLoop zipName pdfStem 0 ps
  else .error "ValueError: Invalid PDF header"

/-- `extract_images_fitz` from `image_extractor.py`: rasterize every page at
2x resolution with alpha and save it as `{zip_name}_{pdf_stem}_p{i}.png`;
modelled on a successful `FitzOutcome.renders n` as the `n` page paths. -/
def extract_images_fitz (zipName pdfStem : String) (n : Nat) : List String :=
  (List.range n).map (imageFileName zipName pdfStem)

/-- The fallback stage of `extract_images`: with the fallback enabled, try
fitz — on success return its paths plus a `FailedPdf` flagged
`used_fallback = true` carrying the primary error text; if fitz throws, return
no paths and a record flagged `used_fallback = false`.  With the fallback
disabled, return no paths and a record flagged `used_fallback = false`. -/
def extractFallback (p : PdfContent) (zipName pdfStem : String) (useFitz : Bool)
    (pypdfError : String) : List String × Option FailedPdf :=
  if useFitz then
    match p.fitz with
    | .renders n =>
      (extract_images_fitz zipName pdfStem n,
       some ⟨zipName, pdfStem, pypdfError, true⟩)
    | .throws e => ([], some ⟨zipName, pdfStem, e, false⟩)
  else ([], some ⟨zipName, pdfStem, pypdfError, false⟩)

/-- `extract_images` from `image_extractor.py`: try pypdf first; if it yields
a non-empty path list, return it with no failure record; otherwise fall
through to the fallback stage with the primary error text
(`"No images found in PDF"` when pypdf returned zero images without
raising). -/
def extract_images (p : PdfContent) (zipName pdfStem : String) (useFitz : Bool) :
    List String × Option FailedPdf :=
  match extract_images_pypdf p zipName pdfStem with
  | .ok paths =>
    if paths.isEmpty then
      extractFallback p zipName pdfStem useFitz "No images found in PDF"
    else (paths, none)
  | .error e => extractFallback p zipName pdfStem useFitz e

/-- `True` when the primary (pypdf) method yields zero images on `p`: it
either raises, or returns an empty path list. -/
def primaryYieldsZero (p : PdfContent) (zipName pdfStem : String) : Bool :=
  match extract_images_pypdf p zipName pdfStem with
  | .ok paths => paths.isEmpty
  | .error _ => true

/-- Python `str.lower()` (ASCII case folding suffices for the names in
scope), implemented structurally over the character list. -/
def strLower (s : String) : String :=
  String.mk (s.toList.map Char.toLower)

/-- Python `str.endswith(suffix)`. -/
def strEndsWith (s suffix : String) : Bool :=
  suffix.toList.isSuffixOf s.toList

/-- Python `str.startswith(pre)`. -/
def strStartsWith (s pre : String) : Bool :=
  pre.toList.isPrefixOf s.toList

/-- Split a character list on a separator character (Python
`str.split(sep)`). -/
def splitOnChar (sep : Char) : List Char → List (List Char)
  | [] => [[]]
  | c :: cs =>
    let r := splitOnChar sep cs
    if c == sep then [] :: r
    else
      match r with
      | [] => [[c]]
      | g :: gs => (c :: g) :: gs

/-- The last path component of a name (the part after the final `/`), as
`pathlib.PurePath(...).name`. -/
def lastComponent (s : String) : String :=
  String.mk ((splitOnChar '/' s.toList).getLastD s.toList)

/-- Index of the last `.` in a character list, if any (Python `str.rfind`). -/
def lastDotIdx (cs : List Char) : Option Nat :=
  ((cs.enum.filter (fun p => p.2 == '.')).map (fun p => p.1)).getLast?

/-- `pathlib.PurePath(...).stem`: the last component without its suffix.  The
suffix is the part from the last `.` on, and only exists when that `.` is
neither the first nor the last character of the component. -/
def stemOfName (s : String) : String :=
  let b := lastComponent s
  let cs := b.toList
  match lastDotIdx cs with
  | some i => if 0 < i ∧ i < cs.length - 1 then String.mk (cs.take i) else b
  | none => b

/-- `pathlib.PurePath(...).suffix`: the extension of the last component,
including the dot, or `""` when there is none. -/
def suffixOfName (s : String) : String :=
  let b := lastComponent s
  let cs := b.toList
  match lastDotIdx cs with
  | some i => if 0 < i ∧ i < cs.length - 1 then String.mk (cs.drop i) else ""
  | none => ""

/-- `IMAGE_EXTENSIONS` from `zip_reader.py`. -/
def IMAGE_EXTENSIONS : List String :=
  [".png", ".jpg", ".jpeg", ".gif", ".bmp", ".webp"]

/-- `is_image_file` from `zip_reader.py`:
`Path(name).suffix.lower() in IMAGE_EXTENSIONS`. -/
def is_image_file (name : String) : Bool :=
  IMAGE_EXTENSIONS.contains (strLower (suffixOfName name))

/-- The ZIP-entry filter of `collect_card_images` (`layout.py`) and
`list_pdfs_in_zip` (`zip_reader.py`): a PDF entry is a name ending `.pdf`
case-insensitively that is not a directory marker and not macOS metadata. -/
def isPdfEntry (name : String) : Bool :=
  strEndsWith (strLower name) ".pdf" && !(strEndsWith name "/")
    && !(strStartsWith name "__MACOSX/")

/-- The ZIP-entry filter of `list_images_in_zip` (`zip_reader.py`): an image
entry by extension, not a directory marker, not macOS metadata. -/
def isImageEntry (name : String) : Bool :=
  is_image_file name && !(strEndsWith name "/") && !(strStartsWith name "__MACOSX/")

/-- One ZIP archive of the assets root: its filename (e.g. `"set1.zip"`) and
its entries in archive order, each entry carrying the name and the modelled
behaviour of its bytes under the PDF libraries (for entries that are not PDFs
the `PdfContent` component is never consulted). -/
structure ZipFile where
  name : String
  entries : List (String × PdfContent)
deriving DecidableEq, Repr

/-- Entry ordering used by `sorted(...)` over ZIP entry names. -/
def entryLe (a b : String × PdfContent) : Prop := a.1 ≤ b.1

instance : DecidableRel entryLe :=
  fun a b => inferInstanceAs (Decidable (a.1 ≤ b.1))

/-- ZIP-archive ordering used by `sorted(assets_dir.glob("*.zip"))`. -/
def zipLe (a b : ZipFile) : Prop := a.name ≤ b.name

instance : DecidableRel zipLe :=
  fun a b => inferInstanceAs (Decidable (a.name ≤ b.name))

/-- `list_images_in_zip` from `zip_reader.py`: the sorted image entry names of
one archive. -/
def list_images_in_zip (z : ZipFile) : List String :=
  List.insertionSort (fun a b : String => a ≤ b)
    ((z.entries.map Prod.fst).filter isImageEntry)

/-- `count_images_in_zips` from `zip_reader.py`: total image-entry count over
a list of archives. -/
def count_images_in_zips (zips : List ZipFile) : Nat :=
  (zips.map (fun z => (list_images_in_zip z).length)).sum

/-- The per-page step of the collector's pypdf loop (`layout.py`, lines
157-177): a raising page is swallowed (`except Exception: img_path = None`),
a page with images goes through `_extract_main_image_to_temp`. -/
def pageResult (zipStem pdfStem : String) (x : Nat × PageOutcome) :
    Option (String × List Nat) :=
  match x.2 with
  | .raises => none
  | .images l => extract_main_image_from_page l zipStem pdfStem x.1

/-- The cards appended by the collector's pypdf phase for one PDF entry: one
`CardImage` per page whose extraction yields a path, tagged with the archive
filename and the PDF entry name. -/
def pypdfPhaseCards (zipName zipStem pdfName : String) (ps : List PageOutcome) :
    List CardImage :=
  ps.enum.filterMap (fun x =>
    (pageResult zipStem (stemOfName pdfName) x).map
      (fun pr => (⟨zipName, pdfName, pr.1⟩ : CardImage)))

/-- Processing of one PDF entry by `collect_card_images` (`layout.py`, lines
148-226).  Returns the cards appended, the `FailedPdf` records appended, and
whether the fitz fallback block was entered.  The primary phase sets
`pypdf_error` on a bad header or a reader exception (always a non-empty
string, so Python's `if pypdf_error:` is modelled by `Option.isSome`); the
fallback runs only when the primary phase appended no card; a fitz success
with no recorded pypdf error appends no failure record. -/
def processPdfLayout (zipName zipStem pdfName : String) (p : PdfContent)
    (useFitz : Bool) : List CardImage × List FailedPdf × Bool :=
  let pypdfError : Option String :=
    if p.header_ok then
      match p.reader with
      | .throws e => some e
      | .pages _ => none
    else some "Invalid PDF header"
  let cards : List CardImage :=
    if p.header_ok then
      match p.reader with
      | .throws _ => []
      | .pages ps => pypdfPhaseCards zipName zipStem pdfName ps
    else []
  if cards.isEmpty && useFitz then
    match p.fitz with
    | .renders n =>
      let fcards := (List.range n).map (fun i =>
        (⟨zipName, pdfName, imageFileName zipStem (stemOfName pdfName) i⟩ : CardImage))
      (cards ++ fcards,
       match pypdfError with
       | some e => [⟨zipName, pdfName, e, true⟩]
       | none => [],
       true)
    | .throws e => (cards, [⟨zipName, pdfName, e, false⟩], true)
  else if cards.isEmpty then
    (cards, [⟨zipName, pdfName, pypdfError.getD "Unknown error", false⟩], false)
  else (cards, [], false)

/-- Processing of one ZIP archive by `collect_card_images`: filter the entries
to PDF names, sort them, and process each in order, accumulating cards and
failures.  (The source sorts the names and reads each by name; with distinct
entry names this equals sorting the `(name, content)` pairs by name.) -/
def processZip (z : ZipFile) (useFitz : Bool) : List CardImage × List FailedPdf :=
  (List.insertionSort entryLe (z.entries.filter (fun e => isPdfEntry e.1))).foldl
    (fun acc e =>
      let r := processPdfLayout z.name (stemOfName z.name) e.1 e.2 useFitz
      (acc.1 ++ r.1, acc.2 ++ r.2.1))
    ([], [])

/-- `collect_card_images` from `layout.py`: ZIP archives in sorted order, PDF
entries within each archive in sorted order; returns the collected cards and
the failure log of this run (the source stores the log in the module-global
`failed_pdfs`, reset at the start of every invocation; the model returns it). -/
def collect_card_images (zips : List ZipFile) (useFitz : Bool) :
    List CardImage × List FailedPdf :=
  (List.insertionSort zipLe zips).foldl
    (fun acc z =>
      let r := processZip z useFitz
      (acc.1 ++ r.1, acc.2 ++ r.2))
    ([], [])

/-- A4 page size from `reportlab.lib.pagesizes` in points: 210mm x 297mm at
72 points per inch and 25.4mm per inch, modelled exactly over `ℚ`. -/
def pageWidth : ℚ := 75600 / 127

/-- A4 page height in points (297mm). -/
def pageHeight : ℚ := 106920 / 127

/-- `card_w = 190.0` from `write_3x3_image_pdf`. -/
def card_w : ℚ := 190

/-- `card_h = 266.0` from `write_3x3_image_pdf`. -/
def card_h : ℚ := 266

/-- `grid_width = 3.0 * card_w`. -/
def grid_width : ℚ := 3 * card_w

/-- `grid_height = 3.0 * card_h`. -/
def grid_height : ℚ := 3 * card_h

/-- `offset_x = (page_width - grid_width) / 2.0`. -/
def offset_x : ℚ := (pageWidth - grid_width) / 2

/-- `offset_y = (page_height - grid_height) / 2.0`. -/
def offset_y : ℚ := (pageHeight - grid_height) / 2

/-- Cell anchor of the card at chunk index `idx`
(`row = idx // 3`, `col = idx % 3`, `x = offset_x + col * card_w`,
`y = offset_y + row * card_h`); drawn with anchor `"sw"`, so this is the
bottom-left corner of the cell in page coordinates (origin bottom-left). -/
def cellPos (idx : Nat) : ℚ × ℚ :=
  (offset_x + (idx % 3 : Nat) * card_w, offset_y + (idx / 3 : Nat) * card_h)

/-- One drawn card: the card and the bottom-left anchor of its cell. -/
structure Placement where
  card : CardImage
  x : ℚ
  y : ℚ
deriving DecidableEq, Repr

/-- The images drawn on one page for one chunk of at most nine cards
(`for idx, card in enumerate(group): ...`). -/
def renderPage (chunk : List CardImage) : List Placement :=
  chunk.enum.map (fun p => ⟨p.2, (cellPos p.1).1, (cellPos p.1).2⟩)

/-- The page partition of `write_3x3_image_pdf`
(`for i in range(0, len(cards), 9): group = cards[i : i + 9]`): consecutive
chunks of at most nine cards. -/
def chunks9 : List CardImage → List (List CardImage)
  | [] => []
  | x :: xs => (x :: xs).take 9 :: chunks9 ((x :: xs).drop 9)
termination_by l => l.length
decreasing_by simp [List.length_drop]; omega

/-- `write_3x3_image_pdf` from `layout.py` / `pdf_generator.py`: raise
`ValueError` on an empty card sequence before opening the output canvas;
otherwise emit one page per chunk of nine.  The produced document is modelled
as the list of pages, each page the list of image placements drawn on it; the
error case produces no document at all. -/
def write_3x3_image_pdf (cards : List CardImage) :
    Except String (List (List Placement)) :=
  if cards.isEmpty then .error "No card images found - input list is empty."
  else .ok ((chunks9 cards).map renderPage)

/-- The sort key order of `build_cards_pdf`
(`key=lambda c: (c.zip_name.lower(), c.pdf_name.lower())`): lexicographic on
the lowercased ZIP name, then the lowercased PDF name. -/
def cardLeR (a b : CardImage) : Prop :=
  strLower a.zip_name < strLower b.zip_name ∨
    (strLower a.zip_name = strLower b.zip_name ∧
      strLower a.pdf_name ≤ strLower b.pdf_name)

instance : DecidableRel cardLeR :=
  fun _a _b => inferInstanceAs (Decidable (_ ∨ _ ∧ _))

instance : IsTotal CardImage cardLeR where
  total a b := by
    rcases lt_trichotomy (strLower a.zip_name) (strLower b.zip_name) with h | h | h
    · exact Or.inl (Or.inl h)
    · rcases le_total (strLower a.pdf_name) (strLower b.pdf_name) with h2 | h2
      · exact Or.inl (Or.inr ⟨h, h2⟩)
      · exact Or.inr (Or.inr ⟨h.symm, h2⟩)
    · exact Or.inr (Or.inl h)

instance : IsTrans CardImage cardLeR where
  trans a b c hab hbc := by
    rcases hab with h1 | ⟨e1, l1⟩ <;> rcases hbc with h2 | ⟨e2, l2⟩
    · exact Or.inl (lt_trans h1 h2)
    · exact Or.inl (e2 ▸ h1)
    · exact Or.inl (by rw [e1]; exact h2)
    · exact Or.inr ⟨e1.trans e2, le_trans l1 l2⟩

/-- `sorted(cards, key=lambda c: (c.zip_name.lower(), c.pdf_name.lower()))`
from `build_cards_pdf`, modelled by the stable insertion sort. -/
def sortCards (cards : List CardImage) : List CardImage :=
  List.insertionSort cardLeR cards

/-- `build_cards_pdf` from `layout.py`: collect, fail on zero cards, sort the
collected cards once, then paginate. -/
def build_cards_pdf (zips : List ZipFile) (useFitz : Bool) :
    Except String (List (List Placement)) :=
  let cards := (collect_card_images zips useFitz).1
  if cards.isEmpty then .error "No card images found in the ZIP files."
  else write_3x3_image_pdf (sortCards cards)

theorem chunks9_nil_iff (l : List CardImage) : chunks9 l = [] ↔ l = [] := by
  cases l with
  | nil => simp [chunks9]
  | cons x xs => simp [chunks9]

theorem chunks9_flatten (l : List CardImage) : (chunks9 l).flatten = l := by
  induction l using chunks9.induct with
  | case1 => simp [chunks9]
  | case2 x xs ih =>
    rw [chunks9, List.flatten_cons, ih]
    exact List.take_append_drop 9 (x :: xs)

theorem chunks9_length (l : List CardImage) :
    (chunks9 l).length = (l.length + 8) / 9 := by
  induction l using chunks9.induct with
  | case1 => simp [chunks9]
  | case2 x xs ih =>
    rw [chunks9]
    simp only [List.length_cons, ih, List.length_drop]
    omega

theorem chunks9_mem_le (l : List CardImage) :
    ∀ c ∈ chunks9 l, c.length ≤ 9 := by
  induction l using chunks9.induct with
  | case1 => intro c hc; simp [chunks9] at hc
  | case2 x xs ih =>
    intro c hc
    rw [chunks9] at hc
    rcases List.mem_cons.mp hc with h | h
    · subst h; simp only [List.length_take]; omega
    · exact ih c h

theorem chunks9_dropLast_mem (l : List CardImage) :
    ∀ c ∈ (chunks9 l).dropLast, c.length = 9 := by
  induction l using chunks9.induct with
  | case1 => intro c hc; simp [chunks9] at hc
  | case2 x xs ih =>
    intro c hc
    rw [chunks9] at hc
    rcases h9 : chunks9 (List.drop 9 (x :: xs)) with _ | ⟨d, ds⟩
    · rw [h9] at hc
      simp at hc
    · rw [h9] at hc
      rw [List.dropLast_cons₂] at hc
      rcases List.mem_cons.mp hc with h | h
      · subst h
        have hd : List.drop 9 (x :: xs) ≠ [] := by
          intro hn
          rw [hn] at h9
          simp [chunks9] at h9
        have h9lt : 9 < (x :: xs).length := by
          by_contra hle
          exact hd (List.drop_eq_nil_of_le (by omega))
        rw [List.length_cons] at h9lt
        simp only [List.length_take, List.length_cons]
        omega
      · exact ih c (by rw [h9]; exact h)

/-- C5: for every card sequence of length L ≥ 1 the layout engine emits
exactly `ceil(L/9)` pages, one per consecutive chunk of at most nine cards in
sequence order, and only the last chunk may hold fewer than nine cards. -/
theorem write_3x3_pagination (cards : List CardImage) (h : cards ≠ []) :
    write_3x3_image_pdf cards = .ok ((chunks9 cards).map renderPage)
    ∧ ((chunks9 cards).map renderPage).length = (cards.length + 8) / 9
    ∧ (chunks9 cards).flatten = cards
    ∧ (∀ c ∈ chunks9 cards, c.length ≤ 9)
    ∧ (∀ c ∈ (chunks9 cards).dropLast, c.length = 9) := by
  refine ⟨?_, ?_, chunks9_flatten cards, chunks9_mem_le cards,
    chunks9_dropLast_mem cards⟩
  · simp [write_3x3_image_pdf, h]
  · simp [List.length_map, chunks9_length]

/-- A concrete card used by several witnesses. -/
def cardA : CardImage := ⟨"set1.zip", "a.pdf", "set1_a_p0.png"⟩

theorem write_3x3_pagination_witness :
    ([cardA] ≠ []) ∧
    (write_3x3_image_pdf [cardA] = .ok ((chunks9 [cardA]).map renderPage)
     ∧ ((chunks9 [cardA]).map renderPage).length = (([cardA] : List CardImage).length + 8) / 9
     ∧ (chunks9 [cardA]).flatten = [cardA]
     ∧ (∀ c ∈ chunks9 [cardA], c.length ≤ 9)
     ∧ (∀ c ∈ (chunks9 [cardA]).dropLast, c.length = 9)) :=
  ⟨by decide, write_3x3_pagination [cardA] (by decide)⟩

/-- C6: the layout engine called on the empty card sequence fails with the
explicit "nothing to lay out" `ValueError` and produces no document at all
(the model's error case carries no pages, mirroring that the source raises
before the output canvas is opened, so the output file is never created or
modified). -/
theorem write_3x3_empty_error :
    write_3x3_image_pdf [] = .error "No card images found - input list is empty."
    ∧ (write_3x3_image_pdf ([] : List CardImage)).toOption = none :=
  ⟨rfl, rfl⟩

/-- C8: within a page chunk the card at index `i` is drawn at grid cell
`row = i div 3`, `col = i mod 3`, anchored at the cell's bottom-left corner
`(offset_x + col * 190, offset_y + row * 266)`; the offsets are the halved
difference of page size and grid size, so the left/right and top/bottom
margins are equal; rows grow upward from the bottom (row 0 lowest) and
columns grow rightward from the left (column 0 leftmost). -/
theorem grid_placement (chunk : List CardImage) (i : Nat)
    (h9 : chunk.length ≤ 9) (h : i < chunk.length) :
    (renderPage chunk)[i]? = (chunk[i]?).map (fun c =>
      ⟨c, offset_x + (i % 3 : Nat) * 190, offset_y + (i / 3 : Nat) * 266⟩)
    ∧ offset_x = (pageWidth - grid_width) / 2
    ∧ offset_y = (pageHeight - grid_height) / 2
    ∧ offset_x = pageWidth - (offset_x + grid_width)
    ∧ offset_y = pageHeight - (offset_y + grid_height)
    ∧ (cellPos 0).2 < (cellPos 3).2
    ∧ (cellPos 3).2 < (cellPos 6).2
    ∧ (cellPos 0).1 < (cellPos 1).1
    ∧ (cellPos 1).1 < (cellPos 2).1 := by
  refine ⟨?_, rfl, rfl, ?_, ?_, ?_, ?_, ?_, ?_⟩
  · cases hc : chunk[i]? with
    | none => simp [renderPage, List.getElem?_map, List.getElem?_enum, hc]
    | some c =>
      simp [renderPage, List.getElem?_map, List.getElem?_enum, hc, cellPos,
        card_w, card_h]
  · rw [offset_x, pageWidth, grid_width, card_w]; norm_num
  · rw [offset_y, pageHeight, grid_height, card_h]; norm_num
  · norm_num [cellPos, offset_y, pageHeight, grid_height, card_h]
  · norm_num [cellPos, offset_y, pageHeight, grid_height, card_h]
  · norm_num [cellPos, offset_x, pageWidth, grid_width, card_w]
  · norm_num [cellPos, offset_x, pageWidth, grid_width, card_w]

theorem grid_placement_witness :
    (([cardA] : List CardImage).length ≤ 9 ∧ 0 < ([cardA] : List CardImage).length) ∧
    ((renderPage [cardA])[0]? = (([cardA] : List CardImage)[0]?).map (fun c =>
      ⟨c, offset_x + ((0 : Nat) % 3 : Nat) * 190, offset_y + ((0 : Nat) / 3 : Nat) * 266⟩)
    ∧ offset_x = (pageWidth - grid_width) / 2
    ∧ offset_y = (pageHeight - grid_height) / 2
    ∧ offset_x = pageWidth - (offset_x + grid_width)
    ∧ offset_y = pageHeight - (offset_y + grid_height)
    ∧ (cellPos 0).2 < (cellPos 3).2
    ∧ (cellPos 3).2 < (cellPos 6).2
    ∧ (cellPos 0).1 < (cellPos 1).1
    ∧ (cellPos 1).1 < (cellPos 2).1) :=
  ⟨⟨by decide, by decide⟩, grid_placement [cardA] 0 (by decide) (by decide)⟩

/-- C4: the orchestrator paginates exactly the collected card list sorted by
the total order with primary key the lowercased container name and secondary
key the lowercased entry name; the sort is applied once, between collection
and pagination; the sort is idempotent, produces a list sorted by that order,
and is a permutation of the collected list. -/
theorem build_sorts_once (zips : List ZipFile) (fb : Bool)
    (h : (collect_card_images zips fb).1 ≠ []) :
    build_cards_pdf zips fb
      = write_3x3_image_pdf (sortCards (collect_card_images zips fb).1)
    ∧ sortCards (sortCards (collect_card_images zips fb).1)
        = sortCards (collect_card_images zips fb).1
    ∧ List.Sorted cardLeR (sortCards (collect_card_images zips fb).1)
    ∧ List.Perm (sortCards (collect_card_images zips fb).1)
        (collect_card_images zips fb).1 := by
  refine ⟨?_, ?_, ?_, ?_⟩
  · simp [build_cards_pdf, h]
  · exact (List.sorted_insertionSort cardLeR _).insertionSort_eq
  · exact List.sorted_insertionSort cardLeR _
  · exact List.perm_insertionSort cardLeR _

/-- A one-page PDF whose single page carries one embedded 2x3 image. -/
def goodPdf : PdfContent := ⟨true, .pages [.images [⟨2, 3, [1, 2]⟩]], .renders 1⟩

/-- An archive with a single well-behaved PDF entry. -/
def zipGood : ZipFile := ⟨"set1.zip", [("a.pdf", goodPdf)]⟩

theorem build_sorts_once_witness :
    ((collect_card_images [zipGood] true).1 ≠ []) ∧
    (build_cards_pdf [zipGood] true
      = write_3x3_image_pdf (sortCards (collect_card_images [zipGood] true).1)
    ∧ sortCards (sortCards (collect_card_images [zipGood] true).1)
        = sortCards (collect_card_images [zipGood] true).1
    ∧ List.Sorted cardLeR (sortCards (collect_card_images [zipGood] true).1)
    ∧ List.Perm (sortCards (collect_card_images [zipGood] true).1)
        (collect_card_images [zipGood] true).1) :=
  ⟨by decide, build_sorts_once [zipGood] true (by decide)⟩

theorem extract_images_fallback_eq (p : PdfContent) (zn st : String) (fb : Bool)
    (h : primaryYieldsZero p zn st = true) :
    ∃ e, extract_images p zn st fb = extractFallback p zn st fb e := by
  unfold primaryYieldsZero at h
  cases hp : extract_images_pypdf p zn st with
  | error e => exact ⟨e, by simp [extract_images, hp]⟩
  | ok paths =>
    rw [hp] at h
    have hh : paths.isEmpty = true := h
    have hnil : paths = [] := List.isEmpty_iff.mp hh
    subst hnil
    exact ⟨"No images found in PDF", by simp [extract_images, hp]⟩

/-- C9: when the primary (pypdf) method yields zero images and the fallback
is disabled, `extract_images` returns an empty path list together with a
failure record whose `used_fallback` flag is `false`. -/
theorem extract_images_no_fallback (p : PdfContent) (zn st : String)
    (h : primaryYieldsZero p zn st = true) :
    ∃ f, extract_images p zn st false = ([], some f) ∧ f.used_fallback = false := by
  obtain ⟨e, he⟩ := extract_images_fallback_eq p zn st false h
  exact ⟨⟨zn, st, e, false⟩, by rw [he]; rfl, rfl⟩

/-- A valid one-page PDF whose page carries no embedded images. -/
def pdfNoImages : PdfContent := ⟨true, .pages [.images []], .renders 1⟩

theorem extract_images_no_fallback_witness :
    (primaryYieldsZero pdfNoImages "set1" "a" = true) ∧
    (∃ f, extract_images pdfNoImages "set1" "a" false = ([], some f)
      ∧ f.used_fallback = false) :=
  ⟨by decide, extract_images_no_fallback pdfNoImages "set1" "a" (by decide)⟩

/-- C3 (amended): when the primary method yields zero images, the fallback is
enabled and fitz completes without raising, `extract_images` returns a failure
record with `used_fallback = true` and the fallback's path list — one path per
rasterized page, hence non-empty whenever the PDF has at least one page (a
zero-page PDF makes the list empty). -/
theorem extract_images_fallback_success (p : PdfContent) (zn st : String) (n : Nat)
    (h : primaryYieldsZero p zn st = true) (hf : p.fitz = .renders n) :
    ∃ f, extract_images p zn st true = (extract_images_fitz zn st n, some f)
      ∧ f.used_fallback = true
      ∧ (0 < n → extract_images_fitz zn st n ≠ []) := by
  obtain ⟨e, he⟩ := extract_images_fallback_eq p zn st true h
  refine ⟨⟨zn, st, e, true⟩, ?_, rfl, ?_⟩
  · rw [he]; simp [extractFallback, hf]
  · intro hn
    simp [extract_images_fitz]
    omega

theorem extract_images_fallback_success_witness :
    (primaryYieldsZero pdfNoImages "set2" "c" = true ∧ pdfNoImages.fitz = .renders 1) ∧
    (∃ f, extract_images pdfNoImages "set2" "c" true
        = (extract_images_fitz "set2" "c" 1, some f)
      ∧ f.used_fallback = true
      ∧ (0 < 1 → extract_images_fitz "set2" "c" 1 ≠ [])) :=
  ⟨⟨by decide, by decide⟩,
    extract_images_fallback_success pdfNoImages "set2" "c" 1 (by decide) (by decide)⟩

/-- A structurally valid PDF with zero pages: pypdf sees no pages, fitz
rasterizes zero pages. -/
def zeroPagePdf : PdfContent := ⟨true, .pages [], .renders 0⟩

theorem extract_images_fallback_counterexample :
    primaryYieldsZero zeroPagePdf "set2" "c" = true
    ∧ zeroPagePdf.fitz = .renders 0
    ∧ (extract_images zeroPagePdf "set2" "c" true).1 = []
    ∧ (extract_images zeroPagePdf "set2" "c" true).2
        = some ⟨"set2", "c", "No images found in PDF", true⟩ := by decide

/-- C2 (amended): a PDF with zero pages yields zero images, but not zero
failures — `extract_images` returns the empty path list together with a
failure record carrying "No images found in PDF", flagged `used_fallback`
equal to the fallback setting (the fallback, when enabled, rasterizes zero
pages and so "succeeds" with no output). -/
theorem extract_images_zero_pages (p : PdfContent) (zn st : String) (fb : Bool)
    (h1 : p.header_ok = true) (h2 : p.reader = .pages [])
    (h3 : p.fitz = .renders 0) :
    extract_images p zn st fb = ([], some ⟨zn, st, "No images found in PDF", fb⟩) := by
  rcases p with ⟨ho, r, f⟩
  simp only at h1 h2 h3
  subst h1; subst h2; subst h3
  cases fb with
  | true => rfl
  | false => rfl

theorem extract_images_zero_pages_counterexample :
    (extract_images zeroPagePdf "set1" "b" true).1 = []
    ∧ (extract_images zeroPagePdf "set1" "b" true).2.isSome = true
    ∧ (extract_images zeroPagePdf "set1" "b" false).2.isSome = true := by decide

theorem extract_images_zero_pages_witness :
    (zeroPagePdf.header_ok = true ∧ zeroPagePdf.reader = .pages []
      ∧ zeroPagePdf.fitz = .renders 0) ∧
    extract_images zeroPagePdf "set1" "b" true
      = ([], some ⟨"set1", "b", "No images found in PDF", true⟩) :=
  ⟨⟨by decide, by decide, by decide⟩,
    extract_images_zero_pages zeroPagePdf "set1" "b" true (by decide) (by decide)
      (by decide)⟩

theorem mainImageOf_cons (x y : PdfImage) (ys : List PdfImage) :
    mainImageOf x (y :: ys)
      = mainImageOf (if img_score x < img_score y then y else x) ys := rfl

theorem mainImageOf_mem (x : PdfImage) (xs : List PdfImage) :
    mainImageOf x xs ∈ x :: xs := by
  induction xs generalizing x with
  | nil => simp [mainImageOf]
  | cons y ys ih =>
    rw [mainImageOf_cons]
    rcases List.mem_cons.mp (ih (if img_score x < img_score y then y else x)) with h | h
    · rw [h]
      split
      · exact List.mem_cons_of_mem x (List.mem_cons_self y ys)
      · exact List.mem_cons_self x _
    · exact List.mem_cons_of_mem x (List.mem_cons_of_mem y h)

theorem img_score_le_mainImageOf (x : PdfImage) (xs : List PdfImage) :
    ∀ img ∈ x :: xs, img_score img ≤ img_score (mainImageOf x xs) := by
  induction xs generalizing x with
  | nil =>
    intro img hm
    rcases List.mem_cons.mp hm with h | h
    · rw [h]; exact le_refl _
    · simp at h
  | cons y ys ih =>
    intro img hm
    rw [mainImageOf_cons]
    have hx : img_score x ≤ img_score (if img_score x < img_score y then y else x) := by
      split
      · next hlt => exact le_of_lt hlt
      · exact le_refl _
    have hy : img_score y ≤ img_score (if img_score x < img_score y then y else x) := by
      split
      · exact le_refl _
      · next hnlt => exact Nat.le_of_not_lt hnlt
    have hhead := ih (if img_score x < img_score y then y else x)
    rcases List.mem_cons.mp hm with h | h
    · rw [h]
      exact le_trans hx (hhead _ (List.mem_cons_self _ _))
    · rcases List.mem_cons.mp h with h2 | h2
      · rw [h2]
        exact le_trans hy (hhead _ (List.mem_cons_self _ _))
      · exact hhead img (List.mem_cons_of_mem _ h2)

/-- C7 (amended): on a page with at least one embedded image the primary
extraction picks the image with the maximal `img_score` (the pixel area, or
the raw byte length when the area is zero; Python's `max` keeps the first
maximal element) and, provided the winner's raw data is non-empty, writes
those bytes to `{container}_{entry-stem}_p{page-index}.png` with a 0-based
page index; a winner with empty raw data produces no file at all. -/
theorem extract_main_image_selects_largest (x : PdfImage) (xs : List PdfImage)
    (zn st : String) (i : Nat) (h : (mainImageOf x xs).data ≠ []) :
    extract_main_image_from_page (x :: xs) zn st i
      = some (imageFileName zn st i, (mainImageOf x xs).data)
    ∧ imageFileName zn st i = zn ++ "_" ++ st ++ "_p" ++ toString i ++ ".png"
    ∧ mainImageOf x xs ∈ x :: xs
    ∧ (∀ img ∈ x :: xs, img_score img ≤ img_score (mainImageOf x xs)) := by
  refine ⟨?_, rfl, mainImageOf_mem x xs, img_score_le_mainImageOf x xs⟩
  simp [extract_main_image_from_page, h]

theorem extract_main_image_empty_data_counterexample :
    ([(⟨2, 2, []⟩ : PdfImage)] : List PdfImage).length = 1
    ∧ img_score ⟨2, 2, []⟩ = 4
    ∧ extract_main_image_from_page [⟨2, 2, []⟩] "set1" "a" 0 = none := by decide

theorem extract_main_image_selects_largest_witness :
    ((mainImageOf ⟨1, 1, [7]⟩ [⟨5, 5, [1]⟩]).data ≠ []) ∧
    (extract_main_image_from_page [⟨1, 1, [7]⟩, ⟨5, 5, [1]⟩] "set1" "a" 0
      = some (imageFileName "set1" "a" 0, (mainImageOf ⟨1, 1, [7]⟩ [⟨5, 5, [1]⟩]).data)
    ∧ imageFileName "set1" "a" 0 = "set1" ++ "_" ++ "a" ++ "_p" ++ toString 0 ++ ".png"
    ∧ mainImageOf ⟨1, 1, [7]⟩ [⟨5, 5, [1]⟩] ∈ [(⟨1, 1, [7]⟩ : PdfImage), ⟨5, 5, [1]⟩]
    ∧ (∀ img ∈ [(⟨1, 1, [7]⟩ : PdfImage), ⟨5, 5, [1]⟩],
        img_score img ≤ img_score (mainImageOf ⟨1, 1, [7]⟩ [⟨5, 5, [1]⟩]))) :=
  ⟨by decide,
    extract_main_image_selects_largest ⟨1, 1, [7]⟩ [⟨5, 5, [1]⟩] "set1" "a" 0 (by decide)⟩

/-- C10: when one page of a PDF raises during per-page extraction while at
least one other page of the same PDF yields an image, the collector appends
only the cards of the succeeding pages (the raising page contributes none),
appends no `FailedPdf` record, and does not invoke the fitz fallback for that
PDF — the per-page exception is silently swallowed. -/
theorem per_page_error_swallowed (zn zs pn : String) (ps : List PageOutcome)
    (fz : FitzOutcome) (fb : Bool)
    (h1 : PageOutcome.raises ∈ ps)
    (h2 : ∃ x ∈ ps.enum, pageResult zs (stemOfName pn) x ≠ none) :
    processPdfLayout zn zs pn ⟨true, .pages ps, fz⟩ fb
      = (pypdfPhaseCards zn zs pn ps, [], false)
    ∧ (∀ i : Nat, pageResult zs (stemOfName pn) (i, PageOutcome.raises) = none) := by
  refine ⟨?_, fun i => rfl⟩
  have hne : pypdfPhaseCards zn zs pn ps ≠ [] := by
    rcases h2 with ⟨x, hx, hres⟩
    intro hnil
    rw [pypdfPhaseCards, List.filterMap_eq_nil_iff] at hnil
    have hzz := hnil x hx
    rcases hr : pageResult zs (stemOfName pn) x with _ | v
    · exact hres hr
    · rw [hr] at hzz; simp at hzz
  simp [processPdfLayout, List.isEmpty_eq_false.mpr hne]

/-- One PDF whose first page raises during extraction and whose second page
yields an image. -/
def psRaise : List PageOutcome := [.raises, .images [⟨1, 1, [7]⟩]]

theorem per_page_error_swallowed_witness :
    (PageOutcome.raises ∈ psRaise
      ∧ ∃ x ∈ psRaise.enum, pageResult "set1" (stemOfName "a.pdf") x ≠ none) ∧
    (processPdfLayout "set1.zip" "set1" "a.pdf" ⟨true, .pages psRaise, .renders 1⟩ true
        = (pypdfPhaseCards "set1.zip" "set1" "a.pdf" psRaise, [], false)
      ∧ (∀ i : Nat, pageResult "set1" (stemOfName "a.pdf") (i, PageOutcome.raises) = none)) :=
  ⟨⟨by decide, by decide⟩,
    per_page_error_swallowed "set1.zip" "set1" "a.pdf" psRaise (.renders 1) true
      (by decide) (by decide)⟩

theorem foldl_append_nil {A : Type} (l : List A)
    (g1 : A → List CardImage) (g2 : A → List FailedPdf)
    (hg : ∀ z ∈ l, g1 z = [] ∧ g2 z = [])
    (acc : List CardImage × List FailedPdf) :
    l.foldl (fun acc z => (acc.1 ++ g1 z, acc.2 ++ g2 z)) acc = acc := by
  induction l generalizing acc with
  | nil => rfl
  | cons z zs ih =>
    rw [List.foldl_cons, (hg z (List.mem_cons_self z zs)).1,
      (hg z (List.mem_cons_self z zs)).2]
    simp only [List.append_nil]
    exact ih (fun w hw => hg w (List.mem_cons_of_mem z hw)) acc

/-- C1 (amended): the collector processes only PDF-named entries of the ZIP
archives; image entries are never read or copied.  For an assets root whose
archives contain no PDF entries (for example, only image entries) the
returned `CardImage` list is empty — not equal to the total image-entry
count — and the failure log is empty too. -/
theorem collect_ignores_image_entries (zips : List ZipFile) (fb : Bool)
    (h : ∀ z ∈ zips, ∀ e ∈ z.entries, isPdfEntry e.1 = false) :
    collect_card_images zips fb = ([], []) := by
  rw [collect_card_images]
  show (List.insertionSort zipLe zips).foldl
    (fun acc z => (acc.1 ++ (processZip z fb).1, acc.2 ++ (processZip z fb).2))
    ([], []) = ([], [])
  refine foldl_append_nil _ _ _ ?_ ([], [])
  intro z hz
  have hz2 : z ∈ zips := (List.mem_insertionSort zipLe).mp hz
  have hfil : z.entries.filter (fun e => isPdfEntry e.1) = [] := by
    rw [List.filter_eq_nil_iff]
    intro e he
    simp [h z hz2 e he]
  have hpz : processZip z fb = ([], []) := by
    rw [processZip, hfil]
    rfl
  simp [hpz]

/-- Arbitrary byte-stream behaviour for an entry the collector never reads. -/
def dummyContent : PdfContent := ⟨false, .throws "err", .throws "err"⟩

/-- An archive containing a single image entry and no PDF entries. -/
def zipOnlyImage : ZipFile := ⟨"set1.zip", [("a.png", dummyContent)]⟩

theorem collect_image_entries_counterexample :
    count_images_in_zips [zipOnlyImage] = 1
    ∧ zipOnlyImage.entries.all (fun e => !isPdfEntry e.1) = true
    ∧ (collect_card_images [zipOnlyImage] true).1.length = 0 := by decide

theorem collect_ignores_image_entries_witness :
    (∀ z ∈ [zipOnlyImage], ∀ e ∈ z.entries, isPdfEntry e.1 = false) ∧
    collect_card_images [zipOnlyImage] true = ([], []) :=
  ⟨by decide, collect_ignores_image_entries [zipOnlyImage] true (by decide)⟩
